import Mathlib

/-!
Verification development for the BioNexus backend (Python/FastAPI).

This file gives a shallow embedding, in Lean 4, of the algorithmic core of
the repository: the NER entity extraction and deduplication
(`backend/app/services/ner.py`), the graph-store entity merge
(`backend/app/services/neo4j_client.py`), the ingestion loop
(`backend/app/routers/ingest.py`), the cascade search and snippet
construction (`backend/app/routers/search.py`), the RAG answer path
(`backend/app/routers/summarize.py`), and the in-memory vector search
(`backend/app/services/colpali.py`).

Conventions of the embedding:
* Python strings are Lean `String`s; `str.lower` / `str.strip` / `str.find` /
  `in` / slicing are modelled char-wise by the `py*` helpers below.
* Python floats used as confidences/scores are modelled by `ℚ`.
* External collaborators (the spaCy model, the regex engine's match spans,
  the Neo4j server, FAISS, the LLM) are modelled by passing their outputs in
  as explicit arguments, and Cypher queries are modelled relationally over an
  explicit store; the decision logic around them is translated from the
  source.
-/

namespace BioNexus

/-- Char-wise model of Python `str.lower()` (exact on ASCII, which is all the
code feeds it). -/
def pyLower (s : String) : String := String.mk (s.toList.map Char.toLower)

/-- Strip leading and trailing whitespace from a char list. -/
def stripL (l : List Char) : List Char :=
  ((l.dropWhile Char.isWhitespace).reverse.dropWhile Char.isWhitespace).reverse

/-- Model of Python `str.strip()`. -/
def pyStrip (s : String) : String := String.mk (stripL s.toList)

/-- `startsL n h` : does char list `h` start with `n`? -/
def startsL : List Char → List Char → Bool
  | [], _ => true
  | _ :: _, [] => false
  | a :: as, b :: bs => a = b && startsL as bs

/-- First index `≥ i` at which `n` occurs in `h`, scanning left to right. -/
def findFromL (n : List Char) : List Char → Nat → Option Nat
  | [], i => if n = [] then some i else none
  | h@(_ :: t), i => if startsL n h then some i else findFromL n t (i + 1)

/-- Model of Python `str.find` (position of first occurrence), returning
`none` where Python returns `-1`. -/
def pyFind (hay needle : String) : Option Nat :=
  findFromL needle.toList hay.toList 0

/-- Model of Python's `needle in hay` substring test. -/
def pyContains (hay needle : String) : Bool := (pyFind hay needle).isSome

/-- Model of Python slicing `s[a:b]` for `a ≤ b` (the only shapes the code
uses; Python's clamping at the ends coincides with `drop`/`take`). -/
def pySlice (s : String) (a b : Nat) : String :=
  String.mk ((s.toList.drop a).take (b - a))

/-- Helper for `pySplitWs`: `cur` is the current word, reversed. -/
def pySplitWsGo : List Char → List Char → List String
  | cur, [] => if cur = [] then [] else [String.mk cur.reverse]
  | cur, c :: cs =>
    if c.isWhitespace then
      if cur = [] then pySplitWsGo [] cs
      else String.mk cur.reverse :: pySplitWsGo [] cs
    else pySplitWsGo (c :: cur) cs

/-- Model of Python `str.split()` with no separator: split on whitespace runs
and drop empty pieces. -/
def pySplitWs (s : String) : List String := pySplitWsGo [] s.toList

/-- Helper for `pyTitle`: the Bool records whether the previous char was
alphabetic. -/
def pyTitleGo : Bool → List Char → List Char
  | _, [] => []
  | prevAlpha, c :: cs =>
    if c.isAlpha then
      (if prevAlpha then c.toLower else c.toUpper) :: pyTitleGo true cs
    else c :: pyTitleGo false cs

/-- Model of Python `str.title()`: first letter of each alphabetic run
uppercased, the rest lowercased. -/
def pyTitle (s : String) : String := String.mk (pyTitleGo false s.toList)

/-- Association-list lookup (model of Python `dict` lookup keyed by
strings). -/
def alookup {β : Type} (k : String) : List (String × β) → Option β
  | [] => none
  | (k', v) :: rest => if k' = k then some v else alookup k rest

/-- Association-list update of the value at key `k` (model of Python
`dict` assignment to an existing key). -/
def aupdate {β : Type} (k : String) (v : β) : List (String × β) → List (String × β)
  | [] => []
  | (k', v') :: rest => if k' = k then (k', v) :: rest else (k', v') :: aupdate k v rest

/-- Insert `a` into `l` before the first element `b` with `le a b`. -/
def insertLe {α : Type} (le : α → α → Bool) (a : α) : List α → List α
  | [] => [a]
  | b :: bs => if le a b then a :: b :: bs else b :: insertLe le a bs

/-- Insertion sort by the Boolean relation `le`; used to model the
`ORDER BY` clauses of the Cypher queries and FAISS's score ordering. -/
def sortByLe {α : Type} (le : α → α → Bool) (l : List α) : List α :=
  l.foldr (insertLe le) []

/-- Enumerate a list with indices starting at `n` (model of Python
`enumerate`). -/
def enumFromN {α : Type} (n : Nat) : List α → List (Nat × α)
  | [] => []
  | a :: as => (n, a) :: enumFromN (n + 1) as

/-- Model of Python `enumerate(l)` (0-based). -/
def pyEnum {α : Type} (l : List α) : List (Nat × α) := enumFromN 0 l

/-- First-occurrence deduplication of a list (model of Cypher
`collect(DISTINCT …)`). -/
def dedupL {α : Type} [DecidableEq α] (l : List α) : List α :=
  l.foldl (fun acc x => if x ∈ acc then acc else acc ++ [x]) []

/-!
## Entity extraction — `backend/app/services/ner.py`

The spaCy recognizer is an external model; its output spans (`doc.ents`) are
passed in as `RawMention`s, and the regex engine's match spans for the
rule-based patterns are passed in as `RuleMatch`es.  CPython's built-in
`hash` on strings is salted per process; `pyHash` models it as a concrete
function of a hash `seed` and the string, reproducing the (seed, string)
dependence (not siphash itself).
-/

/-- Model of CPython's per-process salted string `hash` (the salt is the
`seed` argument; CPython randomizes it per interpreter run). -/
def pyHash (seed : Nat) (s : String) : Nat :=
  s.toList.foldl (fun h c => (h * 1000003 + c.toNat + 1) % 2 ^ 61) (5381 + seed)

/-- The entity id built by `ner.py`:
`f"{entity_type.lower()}_{hash(text.lower()) % 1000000}"`, where `text` is
the raw (unstripped) mention text.  The rule-based paths hardcode the
lowercased prefixes `"organism_"` / `"instrument_"`, which coincide with
`pyLower` of their types. -/
def entityId (seed : Nat) (etype : String) (rawText : String) : String :=
  pyLower etype ++ "_" ++ toString (pyHash seed (pyLower rawText) % 1000000)

/-- The `entity_types` label table of `BiomedicalNER.__init__`. -/
def entity_types : List (String × String) :=
  [("SPECIES", "Organism"), ("CELL", "Organism"),
   ("ORGAN", "Endpoint"), ("TISSUE", "Endpoint"), ("PROTEIN", "Endpoint"),
   ("GENE", "Endpoint"), ("CHEMICAL", "Endpoint"), ("DISEASE", "Endpoint"),
   ("EXPERIMENT", "Experiment"), ("INSTRUMENT", "Instrument"),
   ("DATASET", "Dataset")]

/-- `self.entity_types.get(label, 'Unknown')`. -/
def entityTypeOf (label : String) : String :=
  (alookup label entity_types).getD "Unknown"

/-- A span produced by the external spaCy model (`ent` in `doc.ents`). -/
structure RawMention where
  text : String
  label : String
  start_char : Nat
  end_char : Nat
deriving DecidableEq

/-- A regex match span produced by `re.finditer` for a rule-based pattern. -/
structure RuleMatch where
  text : String
  start_char : Nat
  end_char : Nat
deriving DecidableEq

/-- The entity dict built by `extract_entities` /
`_extract_rule_based_entities`. -/
structure NEntity where
  entity_id : String
  name : String
  entity_type : String
  start_char : Nat
  end_char : Nat
  confidence : ℚ
  spacy_label : String
  canonical_id : Option String
  page_id : Option String
deriving DecidableEq

/-- The regex `^[A-Z][a-z]+\s+[a-z]+$` of `_calculate_confidence` (a
"Genus species" capitalization pattern). -/
def genusPattern (s : String) : Bool :=
  match s.toList with
  | [] => false
  | c :: rest =>
    c.isUpper &&
    decide (0 < (rest.takeWhile Char.isLower).length) &&
    (let r1 := rest.dropWhile Char.isLower
     decide (0 < (r1.takeWhile Char.isWhitespace).length) &&
     (let r2 := r1.dropWhile Char.isWhitespace
      decide (0 < (r2.takeWhile Char.isLower).length) &&
      decide (r2.dropWhile Char.isLower = [])))

/-- `_calculate_confidence`: base 0.7, +0.1 for length > 10, +0.05 for an
uppercase first char, +0.1 for the Genus-species pattern, clamped to 1.
(The source indexes `text[0]`; on the empty string it would raise, modelled
here by the `head?` test being false.) -/
def calcConfidence (text : String) : ℚ :=
  let b : ℚ := mkRat 7 10
  let b := if 10 < text.length then b + mkRat 1 10 else b
  let b := if text.toList.head?.elim false Char.isUpper then b + mkRat 1 20 else b
  let b := if genusPattern text then b + mkRat 1 10 else b
  min b 1

/-- The entity dict built for one spaCy span in `extract_entities`
(lines 68–86): note the id hashes the raw lowercased text while the stored
name is the stripped text. -/
def mkModelEntity (seed : Nat) (pid : Option String) (m : RawMention) : NEntity :=
  { entity_id := entityId seed (entityTypeOf m.label) m.text
    name := pyStrip m.text
    entity_type := entityTypeOf m.label
    start_char := m.start_char
    end_char := m.end_char
    confidence := calcConfidence m.text
    spacy_label := m.label
    canonical_id := none
    page_id := pid }

/-- An organism entity from `_extract_rule_based_entities` (confidence
fixed at 0.8). -/
def mkOrganismEntity (seed : Nat) (pid : Option String) (m : RuleMatch) : NEntity :=
  { entity_id := entityId seed "Organism" m.text
    name := m.text
    entity_type := "Organism"
    start_char := m.start_char
    end_char := m.end_char
    confidence := mkRat 4 5
    spacy_label := "RULE_ORGANISM"
    canonical_id := none
    page_id := pid }

/-- An instrument entity from `_extract_rule_based_entities` (confidence
fixed at 0.75). -/
def mkInstrumentEntity (seed : Nat) (pid : Option String) (m : RuleMatch) : NEntity :=
  { entity_id := entityId seed "Instrument" m.text
    name := m.text
    entity_type := "Instrument"
    start_char := m.start_char
    end_char := m.end_char
    confidence := mkRat 3 4
    spacy_label := "RULE_INSTRUMENT"
    canonical_id := none
    page_id := pid }

/-- `_extract_rule_based_entities`, with the regex engine's organism and
instrument match spans passed in. -/
def extract_rule_based_entities (seed : Nat) (pid : Option String)
    (orgMs instMs : List RuleMatch) : List NEntity :=
  orgMs.map (mkOrganismEntity seed pid) ++ instMs.map (mkInstrumentEntity seed pid)

/-- The dedup key of `_deduplicate_entities`:
`f"{entity['entity_type']}_{entity['name'].lower().strip()}"`. -/
def dedupKey (e : NEntity) : String :=
  e.entity_type ++ "_" ++ pyStrip (pyLower e.name)

/-- Replace the first element equal to `old` by `new` (the in-place
replacement loop of `_deduplicate_entities`, lines 192–195). -/
def replaceFirst {α : Type} [DecidableEq α] (old new : α) : List α → List α
  | [] => []
  | x :: xs => if x = old then new :: xs else x :: replaceFirst old new xs

/-- One iteration of the `_deduplicate_entities` loop over
`(seen_entities, deduplicated)`: an unseen key records and appends the
entity; a seen key replaces the recorded and listed entity only on strictly
higher confidence. -/
def dedupStep (acc : List (String × NEntity) × List NEntity) (e : NEntity) :
    List (String × NEntity) × List NEntity :=
  match alookup (dedupKey e) acc.1 with
  | none => ((dedupKey e, e) :: acc.1, acc.2 ++ [e])
  | some ex =>
    if ex.confidence < e.confidence then
      (aupdate (dedupKey e) e acc.1, replaceFirst ex e acc.2)
    else acc

/-- `_deduplicate_entities` (lines 174–197). -/
def deduplicate_entities (es : List NEntity) : List NEntity :=
  (es.foldl dedupStep ([], [])).2

/-- `extract_entities` (lines 56–96): model-based entities, then rule-based
entities, then deduplication. -/
def extract_entities (seed : Nat) (pid : Option String) (ments : List RawMention)
    (orgMs instMs : List RuleMatch) : List NEntity :=
  deduplicate_entities
    (ments.map (mkModelEntity seed pid) ++ extract_rule_based_entities seed pid orgMs instMs)

/-- Same (type, lowercased-trimmed name) key, as the claims phrase it — the
pair form of `dedupKey`. -/
def sameKey (a b : NEntity) : Prop :=
  a.entity_type = b.entity_type ∧ pyStrip (pyLower a.name) = pyStrip (pyLower b.name)

instance : DecidablePred fun p : NEntity × NEntity => sameKey p.1 p.2 := by
  intro p; unfold sameKey; infer_instance

/-- A string contains no underscore (all entity types the extractor produces
satisfy this, making the concatenated `dedupKey` injective in the pair). -/
def noUnderscore (s : String) : Prop := '_' ∉ s.toList

instance : DecidablePred noUnderscore := by
  intro s; unfold noUnderscore; infer_instance

/-!
## Relation extraction — `RelationExtraction.extract_relations`

The regex matches for the relation patterns are external input
(`PatternMatch`); the entity-overlap collection and adjacent-pair edge
construction (lines 284–319) are translated directly.
-/

/-- A relation edge dict. -/
structure Relation where
  source_entity_id : String
  target_entity_id : String
  relationship_type : String
  confidence : ℚ
  evidence : List String
  page_id : Option String
deriving DecidableEq

/-- A regex match span for one relation pattern. -/
structure PatternMatch where
  relType : String
  text : String
  mstart : Nat
  mend : Nat
deriving DecidableEq

/-- The `entity_positions` dict at position `pos`: entities are written in
list order over all their covered positions, so the last entity covering
`pos` wins. -/
def entityAt (es : List NEntity) (pos : Nat) : Option NEntity :=
  es.foldl (fun acc e => if e.start_char ≤ pos && pos < e.end_char then some e else acc) none

/-- The `match_entities` collection loop: scan the match span's positions in
order, appending each found entity the first time it is seen. -/
def collectMatchEntities (es : List NEntity) (mstart mend : Nat) : List NEntity :=
  (List.range' mstart (mend - mstart)).foldl
    (fun acc pos =>
      match entityAt es pos with
      | some e => if e ∈ acc then acc else acc ++ [e]
      | none => acc)
    []

/-- The edge built for one adjacent entity pair in a match. -/
def mkRelation (relType matchText : String) (pid : Option String)
    (source target : NEntity) : Relation :=
  { source_entity_id := source.entity_id
    target_entity_id := target.entity_id
    relationship_type := relType
    confidence := mkRat 7 10
    evidence := [matchText]
    page_id := pid }

/-- The per-match edge construction (lines 305–319): with ≥ 2 collected
entities, one edge per adjacent pair; otherwise none. -/
def adjacentRelations (relType matchText : String) (pid : Option String)
    (ms : List NEntity) : List Relation :=
  if 2 ≤ ms.length then
    (ms.zip ms.tail).map (fun p => mkRelation relType matchText pid p.1 p.2)
  else []

/-- All edges produced for one pattern match span. -/
def relationsForMatch (es : List NEntity) (pid : Option String)
    (m : PatternMatch) : List Relation :=
  adjacentRelations m.relType m.text pid (collectMatchEntities es m.mstart m.mend)

/-- `extract_relations` (lines 280–322), over the full list of pattern
matches. -/
def extract_relations (es : List NEntity) (pid : Option String)
    (pms : List PatternMatch) : List Relation :=
  (pms.map (relationsForMatch es pid)).flatten

/-!
## Graph-store entity merge — `Neo4jClient.create_entity`

The Neo4j store is modelled, for `Entity` nodes, as an association list
from `entity_id` to the node's properties.  The Cypher
`MERGE (e:Entity {entity_id: $entity_id}) ON CREATE SET … ON MATCH SET …`
either inserts a fresh node with all properties or, on an existing node,
appends the new mentions to the stored mention list — nothing else changes
(in particular the stored `confidence` is written only `ON CREATE`).
-/

/-- An `Entity` node's stored properties. -/
structure ENode where
  name : String
  entity_type : String
  canonical_id : Option String
  confidence : ℚ
  mentions : List String
deriving DecidableEq

/-- The parameters of one `create_entity` call. -/
structure EntityData where
  entity_id : String
  name : String
  entity_type : String
  canonical_id : Option String
  confidence : ℚ
  mentions : List String
deriving DecidableEq

/-- `Neo4jClient.create_entity` (lines 110–127). -/
def create_entity (store : List (String × ENode)) (d : EntityData) :
    List (String × ENode) :=
  match alookup d.entity_id store with
  | none =>
    store ++ [(d.entity_id,
      { name := d.name, entity_type := d.entity_type, canonical_id := d.canonical_id,
        confidence := d.confidence, mentions := d.mentions })]
  | some n =>
    aupdate d.entity_id { n with mentions := n.mentions ++ d.mentions } store

/-!
## Ingestion pipeline — `run_ingestion_pipeline` (`routers/ingest.py`)

Each document's entire per-document processing (OCR, extraction,
persistence) sits inside one `try`; its outcome is abstracted to a single
Bool (`true` = the body ran without raising, `false` = some step raised, in
which case the `except` logs, increments the failure counter, and the loop
continues).  After the loop the job status is set to `"completed"`; the
outer `except` (status `"failed"`) only fires for exceptions outside the
per-document loop, which the model has none of.
-/

/-- The mutable job record tracked in `active_jobs`. -/
structure JobState where
  status : String
  total_documents : Nat
  processed_documents : Nat
  failed_documents : Nat
  progress : ℚ
deriving DecidableEq

/-- One iteration of the per-document loop (lines 35–167): a raising
document increments `failed_documents`, a successful one
`processed_documents`, and either way the loop continues and updates
`progress`. -/
def ingestStep (total : Nat) (j : JobState) (ok : Bool) : JobState :=
  let j :=
    if ok then { j with processed_documents := j.processed_documents + 1 }
    else { j with failed_documents := j.failed_documents + 1 }
  { j with progress := (j.processed_documents : ℚ) / (total : ℚ) }

/-- `run_ingestion_pipeline` (lines 24–179), abstracted over the success of
each document. -/
def run_ingestion_pipeline (docs : List Bool) : JobState :=
  let final := docs.foldl (ingestStep docs.length)
    { status := "running", total_documents := docs.length, processed_documents := 0,
      failed_documents := 0, progress := 0 }
  { final with status := "completed" }

/-!
## Cascade search — `semantic_search` (`routers/search.py`)

The graph store is modelled relationally (`GraphStore`); the three Cypher
stage queries become comprehensions over it: filter by the `WHERE` clause's
case-insensitive `CONTAINS`, project to the returned row shape, `ORDER BY`
via insertion sort, `LIMIT` via `take`.  When all three stages return no
rows, lines 120–146 fabricate two sample rows from the query string; every
row finally passes through the snippet formatter (lines 148–175).
-/

/-- A `Page` node (fields used by the search queries). -/
structure PageN where
  page_id : String
  pub_id : String
  page_number : Nat
  ocr_text : String
deriving DecidableEq

/-- A `Publication` node (fields used by the search queries). -/
structure PubN where
  pub_id : String
  title : String
  authors : List String
  abstract : Option String
  year : Int
deriving DecidableEq

/-- An `Entity` node as seen by the search queries. -/
structure EntN where
  entity_id : String
  name : String
  entity_type : String
deriving DecidableEq

/-- The slice of the property graph the search queries touch.
`mentioned_in` holds (entity_id, page_id) edges, `related_to`
(entity_id, pub_id) edges. -/
structure GraphStore where
  pages : List PageN
  pubs : List PubN
  ents : List EntN
  mentioned_in : List (String × String)
  related_to : List (String × String)

/-- A row returned by one of the three stage queries. -/
structure SRow where
  id : String
  pub_id : String
  title : String
  authors : List String
  page_number : Nat
  abstract : String
  score : ℚ
  entities : List String
  year : Int
deriving DecidableEq

/-- `collect(DISTINCT e.name)[0..5]` for the entities mentioned in a page. -/
def pageEntityNames (st : GraphStore) (pgid : String) : List String :=
  (dedupL ((st.mentioned_in.filter (fun m => m.2 = pgid)).filterMap
    (fun m => (st.ents.find? (fun e => e.entity_id = m.1)).map (fun e => e.name)))).take 5

/-- `collect(DISTINCT e.name)[0..5]` for the entities related to a
publication. -/
def pubEntityNames (st : GraphStore) (pubid : String) : List String :=
  (dedupL ((st.related_to.filter (fun m => m.2 = pubid)).filterMap
    (fun m => (st.ents.find? (fun e => e.entity_id = m.1)).map (fun e => e.name)))).take 5

/-- Stage 1 (lines 40–60): pages whose `ocr_text` contains the query
case-insensitively, joined to their publication, newest first, top-k. -/
def pageStage (st : GraphStore) (query : String) (top_k : Nat) : List SRow :=
  let rows := st.pages.filterMap fun pg =>
    match st.pubs.find? (fun p => p.pub_id = pg.pub_id) with
    | some p =>
      if pyContains (pyLower pg.ocr_text) (pyLower query) then
        some { id := pg.page_id, pub_id := pg.pub_id, title := p.title,
               authors := p.authors, page_number := pg.page_number,
               abstract := pg.ocr_text, score := 1,
               entities := pageEntityNames st pg.page_id, year := p.year }
      else none
    | none => none
  (sortByLe (fun a b => decide (b.year ≤ a.year)) rows).take top_k

/-- Stage 2 (lines 65–90): publications whose title or abstract contains the
query case-insensitively. -/
def pubStage (st : GraphStore) (query : String) (top_k : Nat) : List SRow :=
  let rows := (st.pubs.filter fun p =>
      pyContains (pyLower p.title) (pyLower query) ||
      (match p.abstract with
       | some a => pyContains (pyLower a) (pyLower query)
       | none => false)).map fun p =>
    { id := p.pub_id, pub_id := p.pub_id, title := p.title, authors := p.authors,
      page_number := 1, abstract := p.abstract.getD "No abstract available",
      score := mkRat 9 10, entities := pubEntityNames st p.pub_id, year := p.year }
  (sortByLe (fun a b => decide (b.year ≤ a.year)) rows).take top_k

/-- The first page an entity is mentioned in, with its publication, if any
(the `OPTIONAL MATCH` of stage 3). -/
def entityPagePub (st : GraphStore) (e : EntN) : Option (PageN × PubN) :=
  match st.mentioned_in.find? (fun m => m.1 = e.entity_id) with
  | none => none
  | some m =>
    match st.pages.find? (fun pg => pg.page_id = m.2) with
    | none => none
    | some pg =>
      match st.pubs.find? (fun p => p.pub_id = pg.pub_id) with
      | none => none
      | some p => some (pg, p)

/-- Stage 3 (lines 93–118): entities whose name contains the query
case-insensitively, with `COALESCE` defaults for a missing page/publication. -/
def entityStage (st : GraphStore) (query : String) (top_k : Nat) : List SRow :=
  let matched := sortByLe (fun a b => !decide (b.name < a.name))
    (st.ents.filter fun e => pyContains (pyLower e.name) (pyLower query))
  (matched.map fun e =>
    let pp := entityPagePub st e
    { id := e.entity_id
      pub_id := (pp.map fun x => x.1.pub_id).getD "unknown"
      title := (pp.map fun x => x.2.title).getD ("Entity: " ++ e.name)
      authors := (pp.map fun x => x.2.authors).getD []
      page_number := (pp.map fun x => x.1.page_number).getD 1
      abstract := "Entity found: " ++ e.name ++ " (Type: " ++ e.entity_type ++ ")"
      score := mkRat 4 5
      entities := [e.name]
      year := (pp.map fun x => x.2.year).getD 2024 : SRow }).take top_k


/-- The two fabricated sample rows of lines 123–146, built from the query
string (f-strings with `request.query.title()` and `request.query`). -/
def sampleResults (query : String) : List SRow :=
  [{ id := "sample_1"
     pub_id := "nasa_sample_001"
     title := "Effects of " ++ pyTitle query ++ " on Cellular Function in Microgravity"
     authors := ["Johnson, M.A.", "Smith, R.L.", "Davis, K.J."]
     page_number := 1
     abstract := "This study investigates the relationship between " ++ query ++
       " and biological processes in space environments. Our findings demonstrate significant implications for long-duration space missions."
     score := mkRat 17 20
     entities := [pyTitle query, "Microgravity", "Cell Biology"]
     year := 2023 },
   { id := "sample_2"
     pub_id := "nasa_sample_002"
     title := "Molecular Analysis of " ++ pyTitle query ++ " Response in Space"
     authors := ["Lee, S.H.", "Wilson, P.T."]
     page_number := 1
     abstract := "Advanced molecular techniques reveal novel aspects of " ++ query ++
       " behavior under space conditions. This research provides insights for future space exploration missions."
     score := mkRat 39 50
     entities := [pyTitle query, "Molecular Biology", "Space Research"]
     year := 2022 }]

/-- The snippet construction of lines 150–164: window of 100 chars around
the first case-insensitive occurrence of the query, with ellipses where the
window is cut; if the query does not occur, the first 200 chars (plus an
ellipsis when longer), or a placeholder for empty text.  (`pos - 100` on
`Nat` is Python's `max(0, query_pos - 100)`.) -/
def buildSnippet (text query : String) : String :=
  match pyFind (pyLower text) (pyLower query) with
  | some pos =>
    let start := pos - 100
    let stop := min text.length (pos + query.length + 100)
    let core := pySlice text start stop
    let core := if 0 < start then "..." ++ core else core
    if stop < text.length then core ++ "..." else core
  | none =>
    if 200 < text.length then pySlice text 0 200 ++ "..."
    else if text = "" then "No content available" else text

/-- A formatted search result (lines 166–175). -/
structure FRow where
  id : String
  title : String
  authors : List String
  year : Int
  abstract : String
  score : ℚ
  entities : List String
  pub_id : String
deriving DecidableEq

/-- Formatting of one result row (snippet in place of the raw abstract). -/
def formatResult (query : String) (r : SRow) : FRow :=
  { id := r.id, title := r.title, authors := r.authors, year := r.year,
    abstract := buildSnippet r.abstract query, score := r.score,
    entities := r.entities, pub_id := r.pub_id }

/-- `semantic_search` (lines 21–191): the three-stage cascade, the
sample-data fallback, and the snippet formatting. -/
def semantic_search (st : GraphStore) (query : String) (top_k : Nat) : List FRow :=
  let results := pageStage st query top_k
  let results := if results = [] then pubStage st query top_k else results
  let results := if results = [] then entityStage st query top_k else results
  let results := if results = [] then sampleResults query else results
  results.map (formatResult query)

/-- The amended C9 snippet specification, written from the amended claim's
words: first case-insensitive occurrence at `p` gives the window
`text[max(0, p-100) : min(len(text), p+len(query)+100)]`, an ellipsis on
each side exactly where the window bound is strictly inside the text; with
no occurrence the snippet is the first 200 characters followed by an
ellipsis when the text is longer than 200 characters, the whole text when it
is nonempty and at most 200 characters, and the placeholder
`"No content available"` when the text is empty. -/
def claimSnippetC9 (text query : String) : String :=
  match pyFind (pyLower text) (pyLower query) with
  | some p =>
    let lo := max 0 (p - 100)
    let hi := min text.length (p + query.length + 100)
    (if 0 < lo then "..." else "") ++ pySlice text lo hi ++
      (if hi < text.length then "..." else "")
  | none =>
    if 200 < text.length then pySlice text 0 200 ++ "..."
    else if text = "" then "No content available"
    else text

/-!
## RAG answer path — `routers/summarize.py`

The LLM is external: the generated answer text is an argument.  The
candidate-source Cypher query is modelled over the `PubN` publication list.
-/

/-- A retrieved passage dict (built by `_get_passages_from_*`). -/
structure Passage where
  page_id : String
  pub_id : String
  title : String
  authors : List String
  text : String
  page_number : Nat
  score : ℚ
deriving DecidableEq

/-- A `Citation` record. -/
structure Citation where
  citation_id : Nat
  pub_id : String
  page_id : String
  snippet : String
  confidence : ℚ
deriving DecidableEq

/-- The citation marker `f"[{i}]"`. -/
def marker (i : Nat) : String := "[" ++ toString i ++ "]"

/-- The `Citation` built for passage `p` at 1-based position `i`
(lines 270–276): snippet is the passage text truncated to 200 chars with an
ellipsis, confidence is the passage score. -/
def mkCitation (i : Nat) (p : Passage) : Citation :=
  { citation_id := i, pub_id := p.pub_id, page_id := p.page_id,
    snippet := if 200 < p.text.length then pySlice p.text 0 200 ++ "..." else p.text,
    confidence := p.score }

/-- The citation-extraction loop of `_generate_answer_with_citations`
(lines 266–277): keep passage `i` iff its marker occurs in the answer. -/
def citationsFor (answer : String) (passages : List Passage) : List Citation :=
  (pyEnum passages).filterMap fun ip =>
    if pyContains answer (marker (ip.1 + 1)) then some (mkCitation (ip.1 + 1) ip.2)
    else none

/-- The confidence formula of lines 279–284. -/
def ragConfidence (cits : List Citation) (passages : List Passage) : ℚ :=
  if cits = [] then mkRat 1 10
  else
    let avg := (cits.map Citation.confidence).sum / (cits.length : ℚ)
    min (avg * (cits.length : ℚ) / (passages.length : ℚ)) 1

/-- `_generate_answer_with_citations` with the generated answer supplied
(the OpenAI call and its extractive fallback both just produce `answer`). -/
def generate_answer_with_citations (answer : String) (passages : List Passage) :
    String × List Citation × ℚ :=
  let cits := citationsFor answer passages
  (answer, cits, ragConfidence cits passages)

/-- `_get_candidate_sources` (lines 423–442): publications whose lowercased
title contains one of the question's lowercased whitespace-split terms,
newest first, at most 5, formatted `"pub_id: title"`. -/
def get_candidate_sources (question : String) (pubs : List PubN) : List String :=
  let terms := pySplitWs (pyLower question)
  let matched := pubs.filter fun p =>
    terms.any fun t => pyContains (pyLower p.title) t
  ((sortByLe (fun a b => decide (b.year ≤ a.year)) matched).take 5).map
    fun p => p.pub_id ++ ": " ++ p.title

/-- The `RAGResponse` record. -/
structure RAGResp where
  answer : String
  citations : List Citation
  confidence : ℚ
  insufficient_evidence : Bool
  candidate_sources : List String
deriving DecidableEq

/-- `generate_rag_summary` (lines 24–67) after passage retrieval: the
zero-passage branch returns the insufficient-evidence response with
candidate sources; otherwise the answer/citation/confidence path runs and
`insufficient_evidence` is `confidence < 0.3`. -/
def generate_rag_summary (question : String) (passages : List Passage)
    (pubs : List PubN) (genAnswer : String) : RAGResp :=
  if passages = [] then
    { answer := "Insufficient evidence to answer the question."
      citations := []
      confidence := 0
      insufficient_evidence := true
      candidate_sources := get_candidate_sources question pubs }
  else
    let r := generate_answer_with_citations genAnswer passages
    { answer := r.1
      citations := r.2.1
      confidence := r.2.2
      insufficient_evidence := decide (r.2.2 < mkRat 3 10)
      candidate_sources := [] }

/-!
## Vector search — `VectorSearchService.search` (`services/colpali.py`)

The FAISS `IndexFlatIP` holds the stored embeddings in insertion order; an
exact search scores every stored vector by inner product with the query and
returns the best `min(top_k, ntotal)` (score, index) pairs, scores
descending.  Embedding coordinates are modelled over `ℚ`.
-/

/-- Inner product of two equal-length vectors (FAISS `IndexFlatIP` score). -/
def innerProduct (a b : List ℚ) : ℚ :=
  ((a.zip b).map fun p => p.1 * p.2).sum

/-- Model of `IndexFlatIP.search`: all (score, stored-index) pairs, best
`k` first.  (FAISS leaves tie order unspecified; insertion-sort order is
one admissible choice.) -/
def faissSearch (index : List (List ℚ)) (q : List ℚ) (k : Nat) : List (ℚ × Nat) :=
  (sortByLe (fun a b => decide (b.1 ≤ a.1))
    ((pyEnum index).map fun iv => (innerProduct q iv.2, iv.1))).take k

/-- A search hit: a stored metadata payload with `score` and `rank` added
(the `metadata.copy()` plus two assignments of lines 199–204). -/
structure Hit (α : Type) where
  meta : α
  score : ℚ
  rank : Nat
deriving DecidableEq

/-- `VectorSearchService.search` (lines 186–210): empty index returns `[]`;
otherwise FAISS is asked for `min(top_k, ntotal)` neighbours and each valid
index is resolved against `page_metadata`.  (The `idx != -1` guard of the
source cannot fire here because `k ≤ ntotal`.) -/
def VectorSearchService.search {α : Type} (index : List (List ℚ)) (metadata : List α)
    (q : List ℚ) (top_k : Nat) : List (Hit α) :=
  if index.length = 0 then []
  else
    let pairs := faissSearch index q (min top_k index.length)
    (pyEnum pairs).filterMap fun ip =>
      match metadata.get? ip.2.2 with
      | some m => some { meta := m, score := ip.2.1, rank := ip.1 + 1 }
      | none => none

/-!
## Proof-support definition for the deduplication invariant
-/

/-- Invariant of the `_deduplicate_entities` loop after processing the
prefix `pre` of the input: `seen` maps each key seen so far to the
highest-confidence entity of its group in `pre`, and `ded` lists exactly the
values of `seen`, one per key. -/
def DedupInv (pre : List NEntity) (seen : List (String × NEntity))
    (ded : List NEntity) : Prop :=
  (∀ k e, alookup k seen = some e → dedupKey e = k ∧ e ∈ pre ∧
     ∀ e' ∈ pre, dedupKey e' = k → e'.confidence ≤ e.confidence)
  ∧ (∀ e' ∈ pre, (alookup (dedupKey e') seen).isSome = true)
  ∧ (∀ e ∈ ded, alookup (dedupKey e) seen = some e)
  ∧ ((ded.map dedupKey).Nodup)
  ∧ (∀ k e, alookup k seen = some e → e ∈ ded)

/-!
## General lemmas about the helper functions
-/

theorem mem_insertLe {α : Type} (le : α → α → Bool) (a x : α) (l : List α) :
    x ∈ insertLe le a l ↔ x = a ∨ x ∈ l := by
  induction l with
  | nil => simp [insertLe]
  | cons b bs ih =>
    simp only [insertLe]
    split
    · simp [List.mem_cons]
    · simp only [List.mem_cons, ih]
      tauto

theorem mem_sortByLe {α : Type} (le : α → α → Bool) (x : α) (l : List α) :
    x ∈ sortByLe le l ↔ x ∈ l := by
  induction l with
  | nil => simp [sortByLe]
  | cons c cs ih =>
    show x ∈ insertLe le c (sortByLe le cs) ↔ _
    rw [mem_insertLe]
    simp [ih]

theorem mem_enumFromN {α : Type} (l : List α) : ∀ (n i : Nat) (a : α),
    (i, a) ∈ enumFromN n l ↔ n ≤ i ∧ l.get? (i - n) = some a := by
  induction l with
  | nil => intro n i a; simp [enumFromN]
  | cons b bs ih =>
    intro n i a
    simp only [enumFromN, List.mem_cons, Prod.mk.injEq]
    constructor
    · rintro (⟨rfl, rfl⟩ | h)
      · simp
      · obtain ⟨hn, hget⟩ := (ih (n + 1) i a).mp h
        refine ⟨by omega, ?_⟩
        have hi : i - n = (i - (n + 1)) + 1 := by omega
        rw [hi]
        simpa using hget
    · rintro ⟨hn, hget⟩
      by_cases hin : i = n
      · subst hin
        simp only [Nat.sub_self, List.get?_cons_zero, Option.some.injEq] at hget
        exact Or.inl ⟨rfl, hget.symm⟩
      · right
        refine (ih (n + 1) i a).mpr ⟨by omega, ?_⟩
        have hi : i - n = (i - (n + 1)) + 1 := by omega
        rw [hi] at hget
        simpa using hget

theorem mem_pyEnum {α : Type} (l : List α) (i : Nat) (a : α) :
    (i, a) ∈ pyEnum l ↔ l.get? i = some a := by
  unfold pyEnum
  rw [mem_enumFromN]
  simp

theorem length_enumFromN {α : Type} (l : List α) : ∀ n : Nat,
    (enumFromN n l).length = l.length := by
  induction l with
  | nil => intro n; rfl
  | cons b bs ih => intro n; simp [enumFromN, ih]

theorem length_pyEnum {α : Type} (l : List α) : (pyEnum l).length = l.length :=
  length_enumFromN l 0

theorem alookup_aupdate_self {β : Type} (k : String) (v : β)
    (l : List (String × β)) :
    alookup k (aupdate k v l) = (alookup k l).map (fun _ => v) := by
  induction l with
  | nil => simp [alookup, aupdate]
  | cons p rest ih =>
    obtain ⟨k1, v1⟩ := p
    by_cases h : k1 = k
    · subst h; simp [alookup, aupdate]
    · simp [alookup, aupdate, h, ih]

theorem alookup_aupdate_ne {β : Type} (k k' : String) (v : β)
    (l : List (String × β)) (h : k' ≠ k) :
    alookup k' (aupdate k v l) = alookup k' l := by
  induction l with
  | nil => simp [aupdate]
  | cons p rest ih =>
    obtain ⟨k1, v1⟩ := p
    by_cases h1 : k1 = k
    · subst h1
      have h2 : k1 ≠ k' := fun e => h (e ▸ rfl)
      simp [alookup, aupdate, h2]
    · by_cases h2 : k1 = k'
      · subst h2; simp [alookup, aupdate, h1]
      · simp [alookup, aupdate, h1, h2, ih]

theorem replaceFirst_append {α : Type} [DecidableEq α] (old new : α)
    (A B : List α) (h : old ∉ A) :
    replaceFirst old new (A ++ old :: B) = A ++ new :: B := by
  induction A with
  | nil => simp [replaceFirst]
  | cons a as ih =>
    have ha : a ≠ old := fun e => h (e ▸ List.mem_cons_self a as)
    simp only [List.cons_append, replaceFirst, if_neg ha]
    rw [show as.append (old :: B) = as ++ old :: B from rfl,
      ih (fun hm => h (List.mem_cons_of_mem a hm))]

theorem append_underscore_inj : ∀ (l1 l2 r1 r2 : List Char),
    ('_' : Char) ∉ l1 → ('_' : Char) ∉ l2 →
    l1 ++ '_' :: r1 = l2 ++ '_' :: r2 → l1 = l2 ∧ r1 = r2 := by
  intro l1
  induction l1 with
  | nil =>
    intro l2 r1 r2 _ h2 h
    cases l2 with
    | nil => simpa using h
    | cons c cs =>
      simp only [List.nil_append, List.cons_append, List.cons.injEq] at h
      exact absurd (h.1 ▸ List.mem_cons_self c cs) h2
  | cons a as ih =>
    intro l2 r1 r2 h1 h2 h
    cases l2 with
    | nil =>
      simp only [List.cons_append, List.nil_append, List.cons.injEq] at h
      exact absurd (h.1.symm ▸ List.mem_cons_self a as) h1
    | cons c cs =>
      simp only [List.cons_append, List.cons.injEq] at h
      obtain ⟨rfl, h'⟩ := h
      obtain ⟨he, hr⟩ := ih cs r1 r2
        (fun hm => h1 (List.mem_cons_of_mem a hm))
        (fun hm => h2 (List.mem_cons_of_mem a hm)) h'
      exact ⟨by rw [he], hr⟩

theorem sameKey_dedupKey {a b : NEntity} (h : sameKey a b) :
    dedupKey a = dedupKey b := by
  obtain ⟨h1, h2⟩ := h
  unfold dedupKey
  rw [h1, h2]

theorem dedupKey_inj {a b : NEntity} (ha : noUnderscore a.entity_type)
    (hb : noUnderscore b.entity_type) (h : dedupKey a = dedupKey b) :
    sameKey a b := by
  unfold dedupKey at h
  have hd := congrArg String.data h
  simp only [String.data_append] at hd
  have hd2 : a.entity_type.data ++ '_' :: (pyStrip (pyLower a.name)).data =
      b.entity_type.data ++ '_' :: (pyStrip (pyLower b.name)).data := by
    simpa [List.append_assoc] using hd
  obtain ⟨h1, h2⟩ := append_underscore_inj _ _ _ _ ha hb hd2
  exact ⟨String.ext h1, String.ext h2⟩

/-!
## Claim theorems
-/

set_option maxRecDepth 100000


/-- Claim C2, counterexample: persisting the same `entity_id` twice, the
second time with higher confidence, leaves the stored confidence at the
first value (not the max of the observed confidences) and concatenates the
mention lists instead of taking their union. -/
theorem C2_counterexample :
    alookup "organism_1"
      (create_entity (create_entity []
        { entity_id := "organism_1", name := "human", entity_type := "Organism",
          canonical_id := none, confidence := mkRat 1 2, mentions := ["m1"] })
        { entity_id := "organism_1", name := "human", entity_type := "Organism",
          canonical_id := none, confidence := mkRat 9 10, mentions := ["m1"] }) =
      some { name := "human", entity_type := "Organism", canonical_id := none,
             confidence := mkRat 1 2, mentions := ["m1", "m1"] } ∧
    mkRat 1 2 ≠ max (mkRat 1 2) (mkRat 9 10) ∧
    (["m1", "m1"] : List String) ≠ ["m1"] := by decide

/-- Claim C2, amended: when an entity with an already-present `entity_id` is
persisted again, the stored node keeps every field from its creation — in
particular its confidence, which therefore never decreases but is not
updated to the max of the observed confidences — and its mention list
becomes the concatenation of the stored and the newly observed mentions
(duplicates retained, not a set union). -/
theorem C2_merge_appends_mentions_keeps_confidence
    (store : List (String × ENode)) (d : EntityData) (n : ENode)
    (h : alookup d.entity_id store = some n) :
    alookup d.entity_id (create_entity store d) =
      some { n with mentions := n.mentions ++ d.mentions } := by
  unfold create_entity
  rw [h, alookup_aupdate_self, h]
  rfl

/-- Witness for the amended C2 theorem at a concrete store and call. -/
theorem C2_merge_appends_mentions_keeps_confidence_witness :
    alookup "e1" (create_entity
      [("e1", { name := "n", entity_type := "Organism", canonical_id := none,
                confidence := mkRat 1 2, mentions := ["a"] })]
      { entity_id := "e1", name := "n", entity_type := "Organism",
        canonical_id := none, confidence := mkRat 9 10, mentions := ["b"] }) =
      some { name := "n", entity_type := "Organism", canonical_id := none,
             confidence := mkRat 1 2, mentions := ["a", "b"] } :=
  C2_merge_appends_mentions_keeps_confidence
    [("e1", { name := "n", entity_type := "Organism", canonical_id := none,
              confidence := mkRat 1 2, mentions := ["a"] })]
    { entity_id := "e1", name := "n", entity_type := "Organism",
      canonical_id := none, confidence := mkRat 9 10, mentions := ["b"] }
    { name := "n", entity_type := "Organism", canonical_id := none,
      confidence := mkRat 1 2, mentions := ["a"] }
    (by decide)

/-- Claim C3, counterexample: two mentions whose trimmed, lowercased name
and type agree need not get the same `entity_id` — the hash is taken over
the raw lowercased (untrimmed) text, so `"human"` and `" human "` (same
stripped name, same type, same run) get different ids; moreover the same
mention gets different ids under different per-run hash seeds. -/
theorem C3_counterexample :
    ((mkModelEntity 0 none ⟨"human", "SPECIES", 0, 5⟩).entity_type =
        (mkModelEntity 0 none ⟨" human ", "SPECIES", 10, 17⟩).entity_type ∧
      pyStrip (pyLower (mkModelEntity 0 none ⟨"human", "SPECIES", 0, 5⟩).name) =
        pyStrip (pyLower (mkModelEntity 0 none ⟨" human ", "SPECIES", 10, 17⟩).name)) ∧
    (mkModelEntity 0 none ⟨"human", "SPECIES", 0, 5⟩).entity_id ≠
      (mkModelEntity 0 none ⟨" human ", "SPECIES", 10, 17⟩).entity_id ∧
    (mkModelEntity 0 none ⟨"human", "SPECIES", 0, 5⟩).entity_id ≠
      (mkModelEntity 1 none ⟨"human", "SPECIES", 0, 5⟩).entity_id := by
  exact ⟨⟨rfl, rfl⟩, by decide, by decide⟩

/-- Claim C3, amended: within one run (a fixed hash seed), the generated
`entity_id` is a pure function of the lowercased raw mention text and the
entity type: any two mentions whose lowercased text and type agree are
assigned the same `entity_id`. -/
theorem C3_entity_id_pure_in_lowered_text (seed : Nat) (etype t1 t2 : String)
    (h : pyLower t1 = pyLower t2) :
    entityId seed etype t1 = entityId seed etype t2 := by
  unfold entityId
  rw [h]

/-- Witness for the amended C3 theorem at concrete texts. -/
theorem C3_entity_id_pure_in_lowered_text_witness :
    entityId 0 "Organism" "Human" = entityId 0 "Organism" "hUman" :=
  C3_entity_id_pure_in_lowered_text 0 "Organism" "Human" "hUman" (by decide)

/-- Claim C9, counterexample: when the query does not occur in the text and
the text is longer than 200 characters, the snippet is not the first 200
characters — the code appends an ellipsis. -/
theorem C9_counterexample :
    pyFind (pyLower (String.mk (List.replicate 201 'a'))) (pyLower "zebra") = none ∧
    buildSnippet (String.mk (List.replicate 201 'a')) "zebra" ≠
      pySlice (String.mk (List.replicate 201 'a')) 0 200 := by decide

/-- Claim C9, amended: the snippet is the 100-char window around the first
case-insensitive occurrence of the query with an ellipsis on each truncated
side; with no occurrence it is the first 200 characters followed by an
ellipsis when the text is longer than 200 characters, the whole text when
nonempty and at most 200 characters, and a placeholder when empty — i.e.,
`buildSnippet` agrees with the amended specification `claimSnippetC9`
everywhere. -/
theorem C9_snippet_spec (text query : String) :
    buildSnippet text query = claimSnippetC9 text query := by
  unfold buildSnippet claimSnippetC9
  cases h : pyFind (pyLower text) (pyLower query) with
  | none => rfl
  | some p =>
    simp only [Nat.zero_max]
    by_cases h1 : 0 < p - 100 <;>
      by_cases h2 : min text.length (p + query.length + 100) < text.length <;>
        simp [h1, h2, String.append_empty, String.empty_append, String.append_assoc]

/-- Field-wise effect of one loop iteration. -/
theorem ingestStep_proj (total : Nat) (j : JobState) (ok : Bool) :
    (ingestStep total j ok).status = j.status ∧
    (ingestStep total j ok).total_documents = j.total_documents ∧
    (ingestStep total j ok).processed_documents =
      j.processed_documents + (if ok then 1 else 0) ∧
    (ingestStep total j ok).failed_documents =
      j.failed_documents + (if ok then 0 else 1) := by
  cases ok <;> simp [ingestStep]

/-- The per-document loop only accumulates counters; it never changes the
status or total and never aborts. -/
theorem ingest_foldl_counts (total : Nat) (docs : List Bool) : ∀ j : JobState,
    ((docs.foldl (ingestStep total) j).status = j.status) ∧
    ((docs.foldl (ingestStep total) j).total_documents = j.total_documents) ∧
    ((docs.foldl (ingestStep total) j).processed_documents =
      j.processed_documents + docs.count true) ∧
    ((docs.foldl (ingestStep total) j).failed_documents =
      j.failed_documents + docs.count false) := by
  induction docs with
  | nil => intro j; simp
  | cons d ds ih =>
    intro j
    obtain ⟨hs, ht, hp, hf⟩ := ih (ingestStep total j d)
    obtain ⟨e1, e2, e3, e4⟩ := ingestStep_proj total j d
    rw [List.foldl_cons]
    refine ⟨by rw [hs, e1], by rw [ht, e2], ?_, ?_⟩
    · rw [hp, e3]
      cases d <;> simp [List.count_cons] <;> omega
    · rw [hf, e4]
      cases d <;> simp [List.count_cons] <;> omega

/-- Claim C6: a per-document exception only increments the failure counter
and the loop continues: for every pattern of per-document outcomes the job
ends `"completed"` with the processed/failed counters counting the
successes/failures; in particular a 3-document job whose second document
raises ends with 2 processed, 1 failed, status `"completed"` (not
`"failed"`). -/
theorem C6_ingestion_fault_isolation :
    (∀ docs : List Bool,
      (run_ingestion_pipeline docs).status = "completed" ∧
      (run_ingestion_pipeline docs).processed_documents = docs.count true ∧
      (run_ingestion_pipeline docs).failed_documents = docs.count false) ∧
    run_ingestion_pipeline [true, false, true] =
      { status := "completed", total_documents := 3, processed_documents := 2,
        failed_documents := 1, progress := mkRat 2 3 } := by
  constructor
  · intro docs
    obtain ⟨hs, ht, hp, hf⟩ := ingest_foldl_counts docs.length docs
      { status := "running", total_documents := docs.length,
        processed_documents := 0, failed_documents := 0, progress := 0 }
    unfold run_ingestion_pipeline
    refine ⟨rfl, ?_, ?_⟩
    · simpa using hp
    · simpa using hf
  · norm_num [run_ingestion_pipeline, ingestStep]

/-- Claim C5: a relation-pattern match span containing fewer than two
distinct entity mentions yields no edges; with `N ≥ 2` collected mentions it
yields exactly `N − 1` edges — one per adjacent pair in order of appearance
within the match — each with confidence 0.7 and the matched text as
evidence. -/
theorem C5_relation_cardinality :
    ∀ (es : List NEntity) (pid : Option String) (m : PatternMatch),
      ((collectMatchEntities es m.mstart m.mend).length < 2 →
        relationsForMatch es pid m = []) ∧
      (2 ≤ (collectMatchEntities es m.mstart m.mend).length →
        (relationsForMatch es pid m).length =
          (collectMatchEntities es m.mstart m.mend).length - 1 ∧
        relationsForMatch es pid m =
          ((collectMatchEntities es m.mstart m.mend).zip
            (collectMatchEntities es m.mstart m.mend).tail).map
            (fun p => mkRelation m.relType m.text pid p.1 p.2)) ∧
      (∀ r ∈ relationsForMatch es pid m,
        r.confidence = mkRat 7 10 ∧ r.evidence = [m.text] ∧
        r.relationship_type = m.relType) := by
  intro es pid m
  unfold relationsForMatch adjacentRelations
  by_cases h : 2 ≤ (collectMatchEntities es m.mstart m.mend).length
  · rw [if_pos h]
    refine ⟨fun hlt => absurd h (by omega), fun _ => ⟨?_, rfl⟩, ?_⟩
    · rw [List.length_map, List.length_zip, List.length_tail]
      omega
    · intro r hr
      obtain ⟨pair, hp, rfl⟩ := List.mem_map.mp hr
      exact ⟨rfl, rfl, rfl⟩
  · rw [if_neg h]
    exact ⟨fun _ => rfl, fun h2 => absurd h2 h,
      fun r hr => absurd hr (List.not_mem_nil r)⟩

/-- Witness for C5 at a concrete match span containing three entity
mentions: two edges are produced. -/
theorem C5_relation_cardinality_witness :
    2 ≤ (collectMatchEntities
      [{ entity_id := "a", name := "A", entity_type := "Organism", start_char := 0,
         end_char := 2, confidence := mkRat 4 5, spacy_label := "R",
         canonical_id := none, page_id := none },
       { entity_id := "b", name := "B", entity_type := "Endpoint", start_char := 3,
         end_char := 5, confidence := mkRat 4 5, spacy_label := "R",
         canonical_id := none, page_id := none },
       { entity_id := "c", name := "C", entity_type := "Organism", start_char := 6,
         end_char := 8, confidence := mkRat 4 5, spacy_label := "R",
         canonical_id := none, page_id := none }] 0 8).length ∧
    (relationsForMatch
      [{ entity_id := "a", name := "A", entity_type := "Organism", start_char := 0,
         end_char := 2, confidence := mkRat 4 5, spacy_label := "R",
         canonical_id := none, page_id := none },
       { entity_id := "b", name := "B", entity_type := "Endpoint", start_char := 3,
         end_char := 5, confidence := mkRat 4 5, spacy_label := "R",
         canonical_id := none, page_id := none },
       { entity_id := "c", name := "C", entity_type := "Organism", start_char := 6,
         end_char := 8, confidence := mkRat 4 5, spacy_label := "R",
         canonical_id := none, page_id := none }] none
      ⟨"INVESTIGATED", "A and B and C", 0, 8⟩).length =
      (collectMatchEntities
      [{ entity_id := "a", name := "A", entity_type := "Organism", start_char := 0,
         end_char := 2, confidence := mkRat 4 5, spacy_label := "R",
         canonical_id := none, page_id := none },
       { entity_id := "b", name := "B", entity_type := "Endpoint", start_char := 3,
         end_char := 5, confidence := mkRat 4 5, spacy_label := "R",
         canonical_id := none, page_id := none },
       { entity_id := "c", name := "C", entity_type := "Organism", start_char := 6,
         end_char := 8, confidence := mkRat 4 5, spacy_label := "R",
         canonical_id := none, page_id := none }] 0 8).length - 1 :=
  ⟨by decide, ((C5_relation_cardinality _ none
    ⟨"INVESTIGATED", "A and B and C", 0, 8⟩).2.1 (by decide)).1⟩

/-- Claim C7: with zero retrieved passages, the RAG answer is the
insufficient-evidence response: `insufficient_evidence = true`,
`confidence = 0`, no citations, and candidate sources that are exactly
publications whose lowercased title contains one of the question's
lowercased keywords. -/
theorem C7_rag_insufficiency :
    ∀ (question genAnswer : String) (pubs : List PubN),
      (generate_rag_summary question [] pubs genAnswer).answer =
        "Insufficient evidence to answer the question." ∧
      (generate_rag_summary question [] pubs genAnswer).insufficient_evidence = true ∧
      (generate_rag_summary question [] pubs genAnswer).confidence = 0 ∧
      (generate_rag_summary question [] pubs genAnswer).citations = [] ∧
      (generate_rag_summary question [] pubs genAnswer).candidate_sources =
        get_candidate_sources question pubs ∧
      ∀ s ∈ (generate_rag_summary question [] pubs genAnswer).candidate_sources,
        ∃ p ∈ pubs, s = p.pub_id ++ ": " ++ p.title ∧
          ∃ t ∈ pySplitWs (pyLower question), pyContains (pyLower p.title) t = true := by
  intro question genAnswer pubs
  refine ⟨rfl, rfl, rfl, rfl, rfl, ?_⟩
  intro s hs
  have hs2 : s ∈ get_candidate_sources question pubs := hs
  unfold get_candidate_sources at hs2
  obtain ⟨p, hp, rfl⟩ := List.mem_map.mp hs2
  have hp2 := List.take_subset 5 _ hp
  rw [mem_sortByLe] at hp2
  obtain ⟨hpm, hpf⟩ := List.mem_filter.mp hp2
  obtain ⟨t, ht, htc⟩ := List.any_eq_true.mp hpf
  exact ⟨p, hpm, rfl, t, ht, htc⟩

/-- Witness for C7 at a concrete question and publication store. -/
theorem C7_rag_insufficiency_witness :
    (generate_rag_summary "bone loss" []
      [{ pub_id := "p1", title := "Bone loss in mice", authors := [],
         abstract := none, year := 2020 }] "x").insufficient_evidence = true ∧
    ∃ p ∈ [({ pub_id := "p1", title := "Bone loss in mice", authors := [],
              abstract := none, year := 2020 } : PubN)],
      "p1: Bone loss in mice" = p.pub_id ++ ": " ++ p.title ∧
      ∃ t ∈ pySplitWs (pyLower "bone loss"), pyContains (pyLower p.title) t = true :=
  ⟨(C7_rag_insufficiency "bone loss" "x"
      [{ pub_id := "p1", title := "Bone loss in mice", authors := [],
         abstract := none, year := 2020 }]).2.1,
   (C7_rag_insufficiency "bone loss" "x"
      [{ pub_id := "p1", title := "Bone loss in mice", authors := [],
         abstract := none, year := 2020 }]).2.2.2.2.2
     "p1: Bone loss in mice" (by exact List.Mem.head _)⟩

/-- Claim C8: the returned citations are exactly the passages whose 1-based
marker `[i]` occurs in the generated answer, each carrying the passage's
`pub_id` and `page_id`, the 200-char snippet of its text, and the passage
score as confidence; with three passages and an answer containing only
`[2]`, exactly one citation (for the second passage) is returned. -/
theorem C8_citation_filtering :
    (∀ (passages : List Passage) (answer : String),
      (∀ c ∈ citationsFor answer passages,
        ∃ i p, passages.get? i = some p ∧
          pyContains answer (marker (i + 1)) = true ∧ c = mkCitation (i + 1) p) ∧
      (∀ i p, passages.get? i = some p →
        pyContains answer (marker (i + 1)) = true →
        mkCitation (i + 1) p ∈ citationsFor answer passages)) ∧
    citationsFor "According to [2], growth slowed."
      [{ page_id := "pg1", pub_id := "pub1", title := "T1", authors := [],
         text := "text one", page_number := 1, score := mkRat 1 2 },
       { page_id := "pg2", pub_id := "pub2", title := "T2", authors := [],
         text := "text two", page_number := 2, score := mkRat 3 4 },
       { page_id := "pg3", pub_id := "pub3", title := "T3", authors := [],
         text := "text three", page_number := 3, score := mkRat 4 5 }] =
      [mkCitation 2
        { page_id := "pg2", pub_id := "pub2", title := "T2", authors := [],
          text := "text two", page_number := 2, score := mkRat 3 4 }] := by
  constructor
  · intro passages answer
    constructor
    · intro c hc
      unfold citationsFor at hc
      obtain ⟨ip, hip, hf⟩ := List.mem_filterMap.mp hc
      obtain ⟨i, p⟩ := ip
      rw [mem_pyEnum] at hip
      by_cases hm : pyContains answer (marker (i + 1)) = true
      · refine ⟨i, p, hip, hm, ?_⟩
        rw [if_pos hm] at hf
        exact (Option.some_inj.mp hf).symm
      · rw [if_neg hm] at hf
        cases hf
    · intro i p hget hmark
      unfold citationsFor
      exact List.mem_filterMap.mpr
        ⟨(i, p), (mem_pyEnum _ _ _).mpr hget, by rw [if_pos hmark]⟩
  · decide

/-- Witness for C8 at the three concrete passages of the claim's example. -/
theorem C8_citation_filtering_witness :
    mkCitation 2
      { page_id := "pg2", pub_id := "pub2", title := "T2", authors := [],
        text := "text two", page_number := 2, score := mkRat 3 4 } ∈
      citationsFor "According to [2], growth slowed."
        [{ page_id := "pg1", pub_id := "pub1", title := "T1", authors := [],
           text := "text one", page_number := 1, score := mkRat 1 2 },
         { page_id := "pg2", pub_id := "pub2", title := "T2", authors := [],
           text := "text two", page_number := 2, score := mkRat 3 4 },
         { page_id := "pg3", pub_id := "pub3", title := "T3", authors := [],
           text := "text three", page_number := 3, score := mkRat 4 5 }] :=
  (C8_citation_filtering.1
    [{ page_id := "pg1", pub_id := "pub1", title := "T1", authors := [],
       text := "text one", page_number := 1, score := mkRat 1 2 },
     { page_id := "pg2", pub_id := "pub2", title := "T2", authors := [],
       text := "text two", page_number := 2, score := mkRat 3 4 },
     { page_id := "pg3", pub_id := "pub3", title := "T3", authors := [],
       text := "text three", page_number := 3, score := mkRat 4 5 }]
    "According to [2], growth slowed.").2 1
    { page_id := "pg2", pub_id := "pub2", title := "T2", authors := [],
      text := "text two", page_number := 2, score := mkRat 3 4 }
    (by decide) (by decide)

/-- Claim C10: the vector search returns at most `min top_k ntotal` hits,
returns `[]` (rather than raising) on an empty index, and every hit carries
the stored metadata of some indexed entry together with that entry's
inner-product score against the query. -/
theorem C10_vector_search {α : Type} :
    ∀ (index : List (List ℚ)) (metadata : List α) (q : List ℚ) (top_k : Nat),
      (VectorSearchService.search index metadata q top_k).length ≤
        min top_k index.length ∧
      (index = [] → VectorSearchService.search index metadata q top_k = []) ∧
      ∀ r ∈ VectorSearchService.search index metadata q top_k,
        ∃ i v, index.get? i = some v ∧ metadata.get? i = some r.meta ∧
          r.score = innerProduct q v := by
  intro index metadata q top_k
  unfold VectorSearchService.search
  by_cases hidx : index.length = 0
  · rw [if_pos hidx]
    exact ⟨Nat.zero_le _, fun _ => rfl, fun r hr => absurd hr (List.not_mem_nil r)⟩
  · rw [if_neg hidx]
    refine ⟨?_, fun he => absurd (by rw [he]; rfl) hidx, ?_⟩
    · refine le_trans (List.length_filterMap_le _ _) ?_
      rw [length_pyEnum]
      unfold faissSearch
      rw [List.length_take]
      exact Nat.min_le_left _ _
    · intro r hr
      obtain ⟨ip, hip, hf⟩ := List.mem_filterMap.mp hr
      obtain ⟨rank, pr⟩ := ip
      rw [mem_pyEnum] at hip
      have hpr : pr ∈ faissSearch index q (min top_k index.length) :=
        List.get?_mem hip
      unfold faissSearch at hpr
      have hpr2 := List.take_subset _ _ hpr
      rw [mem_sortByLe] at hpr2
      obtain ⟨iv, hiv, heq⟩ := List.mem_map.mp hpr2
      obtain ⟨i0, v0⟩ := iv
      rw [mem_pyEnum] at hiv
      cases hmg : metadata.get? pr.2 with
      | none => rw [hmg] at hf; cases hf
      | some mtd =>
        rw [hmg] at hf
        have hr2 : r = { meta := mtd, score := pr.1, rank := rank + 1 } :=
          (Option.some_inj.mp hf).symm
        have h1 : innerProduct q v0 = pr.1 := congrArg Prod.fst heq
        have h2 : i0 = pr.2 := congrArg Prod.snd heq
        refine ⟨i0, v0, hiv, ?_, ?_⟩
        · rw [h2, hmg, hr2]
        · rw [hr2, h1]

/-- Witness for C10 at a one-entry index. -/
theorem C10_vector_search_witness :
    (VectorSearchService.search [[(1 : ℚ)]] ["a"] [(1 : ℚ)] 5).length ≤ min 5 1 ∧
    ∃ i v, [[(1 : ℚ)]].get? i = some v ∧ ["a"].get? i =
        some (Hit.mk "a" (innerProduct [(1 : ℚ)] [(1 : ℚ)]) 1).meta ∧
      (Hit.mk "a" (innerProduct [(1 : ℚ)] [(1 : ℚ)]) 1).score =
        innerProduct [(1 : ℚ)] v :=
  ⟨(C10_vector_search [[(1 : ℚ)]] ["a"] [(1 : ℚ)] 5).1,
   (C10_vector_search [[(1 : ℚ)]] ["a"] [(1 : ℚ)] 5).2.2
     (Hit.mk "a" (innerProduct [(1 : ℚ)] [(1 : ℚ)]) 1) (List.Mem.head _)⟩

/-- Claim C1: when all three cascade stages return zero results for a query,
`semantic_search` does NOT return an empty result set — it fabricates the
two placeholder sample rows (ids `"sample_1"`, `"sample_2"`), contradicting
the spec's no-fabrication requirement; shown here on an empty graph store
where every stage is empty. -/
theorem C1_fabricated_results_on_empty_cascade :
    pageStage ⟨[], [], [], [], []⟩ "quantum" 10 = [] ∧
    pubStage ⟨[], [], [], [], []⟩ "quantum" 10 = [] ∧
    entityStage ⟨[], [], [], [], []⟩ "quantum" 10 = [] ∧
    (semantic_search ⟨[], [], [], [], []⟩ "quantum" 10).map FRow.id =
      ["sample_1", "sample_2"] ∧
    semantic_search ⟨[], [], [], [], []⟩ "quantum" 10 ≠ [] := by
  refine ⟨rfl, rfl, rfl, by decide, by decide⟩


theorem alookup_cons {β : Type} (k k0 : String) (v : β) (l : List (String × β)) :
    alookup k ((k0, v) :: l) = if k0 = k then some v else alookup k l := rfl

/-- One `dedupStep` preserves the deduplication invariant. -/
theorem dedupStep_inv (pre : List NEntity) (seen : List (String × NEntity))
    (ded : List NEntity) (e : NEntity) (h : DedupInv pre seen ded) :
    DedupInv (pre ++ [e]) (dedupStep (seen, ded) e).1 (dedupStep (seen, ded) e).2 := by
  obtain ⟨h1, h2, h3, h4, h5⟩ := h
  cases hk : alookup (dedupKey e) seen with
  | none =>
    have hstep : dedupStep (seen, ded) e = ((dedupKey e, e) :: seen, ded ++ [e]) := by
      unfold dedupStep
      rw [show alookup (dedupKey e) (seen, ded).1 = none from hk]
    rw [hstep]
    show DedupInv (pre ++ [e]) ((dedupKey e, e) :: seen) (ded ++ [e])
    refine ⟨?_, ?_, ?_, ?_, ?_⟩
    · intro k e1 hke1
      rw [alookup_cons] at hke1
      by_cases hkk : dedupKey e = k
      · rw [if_pos hkk] at hke1
        obtain rfl : e = e1 := Option.some_inj.mp hke1
        refine ⟨hkk, List.mem_append_right pre (List.mem_singleton.mpr rfl), ?_⟩
        intro e' he' hke'
        rcases List.mem_append.mp he' with hpre | hsing
        · exfalso
          have hsome := h2 e' hpre
          have hnone : alookup k seen = none := by rw [← hkk]; exact hk
          rw [hke', hnone] at hsome
          simp at hsome
        · obtain rfl : e' = e := List.mem_singleton.mp hsing
          exact le_refl _
      · rw [if_neg hkk] at hke1
        obtain ⟨hkey, hmem, hmax⟩ := h1 k e1 hke1
        refine ⟨hkey, List.mem_append_left _ hmem, ?_⟩
        intro e' he' hke'
        rcases List.mem_append.mp he' with hpre | hsing
        · exact hmax e' hpre hke'
        · exfalso
          obtain rfl : e' = e := List.mem_singleton.mp hsing
          exact hkk hke'
    · intro e' he'
      rw [alookup_cons]
      by_cases hkk : dedupKey e = dedupKey e'
      · rw [if_pos hkk]; rfl
      · rw [if_neg hkk]
        rcases List.mem_append.mp he' with hpre | hsing
        · exact h2 e' hpre
        · exfalso
          obtain rfl : e' = e := List.mem_singleton.mp hsing
          exact hkk rfl
    · intro x hx
      rw [alookup_cons]
      rcases List.mem_append.mp hx with hd | hsing
      · have hx3 := h3 x hd
        by_cases hkk : dedupKey e = dedupKey x
        · exfalso
          rw [← hkk, hk] at hx3
          cases hx3
        · rw [if_neg hkk]; exact hx3
      · obtain rfl : x = e := List.mem_singleton.mp hsing
        rw [if_pos rfl]
    · rw [List.map_append, List.map_cons, List.map_nil, List.nodup_append]
      refine ⟨h4, List.nodup_singleton _, ?_⟩
      intro a ha hb
      rw [List.mem_singleton] at hb
      subst hb
      obtain ⟨d, hd, hdk⟩ := List.mem_map.mp ha
      have hd3 := h3 d hd
      rw [hdk, hk] at hd3
      cases hd3
    · intro k e1 hke1
      rw [alookup_cons] at hke1
      by_cases hkk : dedupKey e = k
      · rw [if_pos hkk] at hke1
        obtain rfl : e = e1 := Option.some_inj.mp hke1
        exact List.mem_append_right ded (List.mem_singleton.mpr rfl)
      · rw [if_neg hkk] at hke1
        exact List.mem_append_left _ (h5 k e1 hke1)
  | some ex =>
    obtain ⟨hexkey, hexmem, hexmax⟩ := h1 (dedupKey e) ex hk
    have hexded : ex ∈ ded := h5 _ ex hk
    by_cases hconf : ex.confidence < e.confidence
    · -- replacement case
      have hstep : dedupStep (seen, ded) e =
          (aupdate (dedupKey e) e seen, replaceFirst ex e ded) := by
        unfold dedupStep
        rw [show alookup (dedupKey e) (seen, ded).1 = some ex from hk]
        show (if ex.confidence < e.confidence then
            (aupdate (dedupKey e) e seen, replaceFirst ex e ded)
          else (seen, ded)) = _
        rw [if_pos hconf]
      rw [hstep]
      show DedupInv (pre ++ [e]) (aupdate (dedupKey e) e seen) (replaceFirst ex e ded)
      obtain ⟨A, B, hAB⟩ := List.append_of_mem hexded
      subst hAB
      have hexA : ex ∉ A := by
        intro hmem
        rw [List.map_append, List.map_cons, List.nodup_append] at h4
        exact h4.2.2 (List.mem_map_of_mem dedupKey hmem) (List.mem_cons_self _ _)
      have hrep : replaceFirst ex e (A ++ ex :: B) = A ++ e :: B :=
        replaceFirst_append ex e A B hexA
      rw [hrep]
      have hkeyAB : ∀ x, x ∈ A ∨ x ∈ B → dedupKey x ≠ dedupKey e := by
        intro x hx hkx
        have hxded : x ∈ A ++ ex :: B := by
          rcases hx with hA | hB
          · exact List.mem_append_left _ hA
          · exact List.mem_append_right _ (List.mem_cons_of_mem _ hB)
        have h3x := h3 x hxded
        rw [hkx, hk] at h3x
        obtain rfl : ex = x := Option.some_inj.mp h3x
        rcases hx with hA | hB
        · exact hexA hA
        · rw [List.map_append, List.map_cons, List.nodup_append,
            List.nodup_cons] at h4
          exact h4.2.1.1 (List.mem_map_of_mem dedupKey hB)
      refine ⟨?_, ?_, ?_, ?_, ?_⟩
      · intro k e1 hke1
        by_cases hkk : k = dedupKey e
        · subst hkk
          rw [alookup_aupdate_self, hk] at hke1
          obtain rfl : e = e1 := Option.some_inj.mp hke1
          refine ⟨rfl, List.mem_append_right pre (List.mem_singleton.mpr rfl), ?_⟩
          intro e' he' hke'
          rcases List.mem_append.mp he' with hpre | hsing
          · exact le_of_lt (lt_of_le_of_lt (hexmax e' hpre hke') hconf)
          · obtain rfl : e' = e := List.mem_singleton.mp hsing
            exact le_refl _
        · rw [alookup_aupdate_ne _ _ _ _ (fun hkx => hkk hkx)] at hke1
          obtain ⟨hkey, hmem, hmax⟩ := h1 k e1 hke1
          refine ⟨hkey, List.mem_append_left _ hmem, ?_⟩
          intro e' he' hke'
          rcases List.mem_append.mp he' with hpre | hsing
          · exact hmax e' hpre hke'
          · exfalso
            obtain rfl : e' = e := List.mem_singleton.mp hsing
            exact hkk hke'.symm
      · intro e' he'
        by_cases hkk : dedupKey e' = dedupKey e
        · rw [hkk, alookup_aupdate_self, hk]
          rfl
        · rw [alookup_aupdate_ne _ _ _ _ hkk]
          rcases List.mem_append.mp he' with hpre | hsing
          · exact h2 e' hpre
          · exfalso
            obtain rfl : e' = e := List.mem_singleton.mp hsing
            exact hkk rfl
      · intro x hx
        rcases List.mem_append.mp hx with hA | hx2
        · have hne := hkeyAB x (Or.inl hA)
          rw [alookup_aupdate_ne _ _ _ _ hne]
          exact h3 x (List.mem_append_left _ hA)
        · rcases List.mem_cons.mp hx2 with rfl | hB
          · rw [alookup_aupdate_self, hk]
            rfl
          · have hne := hkeyAB x (Or.inr hB)
            rw [alookup_aupdate_ne _ _ _ _ hne]
            exact h3 x (List.mem_append_right _ (List.mem_cons_of_mem _ hB))
      · rw [List.map_append, List.map_cons]
        rw [List.map_append, List.map_cons] at h4
        rwa [show dedupKey e = dedupKey ex from hexkey.symm]
      · intro k e1 hke1
        by_cases hkk : k = dedupKey e
        · subst hkk
          rw [alookup_aupdate_self, hk] at hke1
          obtain rfl : e = e1 := Option.some_inj.mp hke1
          exact List.mem_append_right _ (List.mem_cons_self _ _)
        · rw [alookup_aupdate_ne _ _ _ _ (fun hkx => hkk hkx)] at hke1
          have hmem := h5 k e1 hke1
          have hne : e1 ≠ ex := by
            intro hxe
            obtain ⟨hkey, _, _⟩ := h1 k e1 hke1
            rw [hxe] at hkey
            exact hkk (hkey.symm.trans hexkey)
          rcases List.mem_append.mp hmem with hA | hx2
          · exact List.mem_append_left _ hA
          · rcases List.mem_cons.mp hx2 with rfl | hB
            · exact absurd rfl hne
            · exact List.mem_append_right _ (List.mem_cons_of_mem _ hB)
    · -- keep case: the state is unchanged
      have hstep : dedupStep (seen, ded) e = (seen, ded) := by
        unfold dedupStep
        rw [show alookup (dedupKey e) (seen, ded).1 = some ex from hk]
        show (if ex.confidence < e.confidence then
            (aupdate (dedupKey e) e seen, replaceFirst ex e ded)
          else (seen, ded)) = _
        rw [if_neg hconf]
      rw [hstep]
      show DedupInv (pre ++ [e]) seen ded
      refine ⟨?_, ?_, h3, h4, h5⟩
      · intro k e1 hke1
        obtain ⟨hkey, hmem, hmax⟩ := h1 k e1 hke1
        refine ⟨hkey, List.mem_append_left _ hmem, ?_⟩
        intro e' he' hke'
        rcases List.mem_append.mp he' with hpre | hsing
        · exact hmax e' hpre hke'
        · obtain rfl : e' = e := List.mem_singleton.mp hsing
          have : alookup k seen = some ex := by rw [← hke']; exact hk
          rw [this] at hke1
          obtain rfl : ex = e1 := Option.some_inj.mp hke1
          exact le_of_not_lt hconf
      · intro e' he'
        rcases List.mem_append.mp he' with hpre | hsing
        · exact h2 e' hpre
        · obtain rfl : e' = e := List.mem_singleton.mp hsing
          rw [hk]
          rfl

/-- The fold of `dedupStep` preserves the invariant over any suffix. -/
theorem dedup_fold_inv : ∀ (es pre : List NEntity)
    (seen : List (String × NEntity)) (ded : List NEntity),
    DedupInv pre seen ded →
    DedupInv (pre ++ es) (es.foldl dedupStep (seen, ded)).1
      (es.foldl dedupStep (seen, ded)).2 := by
  intro es
  induction es with
  | nil => intro pre seen ded h; simpa using h
  | cons e es ih =>
    intro pre seen ded h
    have hstep := dedupStep_inv pre seen ded e h
    have hrest := ih (pre ++ [e]) (dedupStep (seen, ded) e).1
      (dedupStep (seen, ded) e).2 hstep
    rw [List.foldl_cons]
    rw [show pre ++ e :: es = (pre ++ [e]) ++ es by simp]
    simpa using hrest

/-- The deduplication invariant holds of `_deduplicate_entities`' result. -/
theorem deduplicate_entities_inv (es : List NEntity) :
    DedupInv es (es.foldl dedupStep ([], [])).1 (deduplicate_entities es) := by
  have base : DedupInv [] [] ([] : List NEntity) := by
    refine ⟨?_, ?_, ?_, List.nodup_nil, ?_⟩
    · intro k e hke; simp [alookup] at hke
    · intro e' he'; cases he'
    · intro x hx; cases hx
    · intro k e hke; simp [alookup] at hke
  have h := dedup_fold_inv es [] [] [] base
  simpa using h

/-- Claim C4: within one extraction call, `_deduplicate_entities` groups
mentions by (type, lowercased-trimmed name) and returns exactly one mention
per key — one with the group's highest confidence (for entity types without
an underscore, as all produced types are); and on the claim's example,
mentions ("Human", Organism, 0.8) and ("human", Organism, 0.9) yield
exactly the single 0.9-confidence Organism entity. -/
theorem C4_dedup_one_max_per_key :
    (∀ es : List NEntity, (∀ x ∈ es, noUnderscore x.entity_type) →
      ((deduplicate_entities es).Pairwise fun a b => ¬ sameKey a b) ∧
      (∀ x ∈ deduplicate_entities es, x ∈ es ∧
        ∀ y ∈ es, sameKey y x → y.confidence ≤ x.confidence) ∧
      (∀ y ∈ es, ∃ x ∈ deduplicate_entities es, sameKey x y)) ∧
    deduplicate_entities
      [⟨"organism_1", "Human", "Organism", 0, 5, mkRat 4 5, "S", none, none⟩,
       ⟨"organism_1", "human", "Organism", 10, 15, mkRat 9 10, "S", none, none⟩] =
      [⟨"organism_1", "human", "Organism", 10, 15, mkRat 9 10, "S", none, none⟩] := by
  constructor
  · intro es hund
    obtain ⟨h1, h2, h3, h4, h5⟩ := deduplicate_entities_inv es
    refine ⟨?_, ?_, ?_⟩
    · have hpw : (deduplicate_entities es).Pairwise
          fun a b => dedupKey a ≠ dedupKey b := List.pairwise_map.mp h4
      exact hpw.imp fun hab hsame => hab (sameKey_dedupKey hsame)
    · intro x hx
      have hl := h3 x hx
      obtain ⟨_, hmem, hmax⟩ := h1 _ x hl
      exact ⟨hmem, fun y hy hsame => hmax y hy (sameKey_dedupKey hsame)⟩
    · intro y hy
      have hsome := h2 y hy
      cases hx : alookup (dedupKey y) ((es.foldl dedupStep ([], [])).1) with
      | none => rw [hx] at hsome; simp at hsome
      | some x =>
        obtain ⟨hkey, hxes, _⟩ := h1 _ x hx
        exact ⟨x, h5 _ x hx, dedupKey_inj (hund x hxes) (hund y hy) hkey⟩
  · decide

/-- Witness for C4 at the claim's concrete example. -/
theorem C4_dedup_one_max_per_key_witness :
    (∀ x ∈ [(⟨"organism_1", "Human", "Organism", 0, 5, mkRat 4 5, "S", none,
        none⟩ : NEntity),
      ⟨"organism_1", "human", "Organism", 10, 15, mkRat 9 10, "S", none, none⟩],
      noUnderscore x.entity_type) ∧
    ∀ y ∈ [(⟨"organism_1", "Human", "Organism", 0, 5, mkRat 4 5, "S", none,
        none⟩ : NEntity),
      ⟨"organism_1", "human", "Organism", 10, 15, mkRat 9 10, "S", none, none⟩],
      ∃ x ∈ deduplicate_entities
        [⟨"organism_1", "Human", "Organism", 0, 5, mkRat 4 5, "S", none, none⟩,
         ⟨"organism_1", "human", "Organism", 10, 15, mkRat 9 10, "S", none, none⟩],
        sameKey x y :=
  ⟨by decide,
   (C4_dedup_one_max_per_key.1
     [⟨"organism_1", "Human", "Organism", 0, 5, mkRat 4 5, "S", none, none⟩,
      ⟨"organism_1", "human", "Organism", 10, 15, mkRat 9 10, "S", none, none⟩]
     (by decide)).2.2⟩

end BioNexus
